import Mathlib

/-!
Verification development for an interactive terminal git front-end
(Go sources: main.go, update.go, commands.go, git/status.go, git/types.go,
ui/keys.go, ui layout).  Each Go function used by the specification claims
is translated below as an executable Lean definition; theorems settle the
claims against these definitions.
-/

namespace IGit

/-! ## Layout engine (ui, `NewLayout`) -/

/-- Mirror of the Go `ui.Layout` structure.  Go `int` fields are `Int`. -/
structure Layout where
  TotalWidth : Int
  TotalHeight : Int
  ListWidth : Int
  PreviewWidth : Int
  ContentHeight : Int
  deriving Repr, DecidableEq

/-- Translation of Go `ui.NewLayout(width, height)`.  Go integer division
truncates toward zero, matching `Int.tdiv`. -/
def NewLayout (width height : Int) : Layout :=
  let contentHeight0 := height - 5
  let contentHeight := if contentHeight0 < 5 then 5 else contentHeight0
  -- width calculation
  let lw0 : Int :=
    if width < 100 then width - 2
    else if width < 140 then Int.tdiv width 2
    else Int.tdiv (width * 2) 5
  let pw0 : Int :=
    if width < 100 then 0
    else if width < 140 then width - Int.tdiv width 2 - 2
    else width - Int.tdiv (width * 2) 5 - 2
  -- minimum width clamps, in source order
  let lw1 := if lw0 < 30 then 30 else lw0
  let pw1 := if lw0 < 30 then 0 else pw0
  let pw2 := if pw1 < 30 then 0 else pw1
  { TotalWidth := width
    TotalHeight := height
    ListWidth := lw1
    PreviewWidth := pw2
    ContentHeight := contentHeight }

/-- Translation of Go `Layout.HasPreviewPane`. -/
def Layout.HasPreviewPane (l : Layout) : Bool :=
  l.PreviewWidth > 0

/-- Translation of Go `Layout.ListHeight`. -/
def Layout.ListHeight (l : Layout) : Int :=
  l.ContentHeight - 2

/-! ## Binary detection (commands.go, `isBinaryFile`) -/

/-- One byte is "non-text" for the Go loop body in `isBinaryFile`:
not in `{'\t','\n','\r',' '}`, outside 32..126, and outside 128..191. -/
def isNonText (b : Nat) : Bool :=
  (!(b == 9 || b == 10 || b == 13 || b == 32)) &&
    (b < 32 || b > 126) && (b < 128 || b > 191)

/-- Translation of Go `isBinaryFile(data []byte) bool`.  Bytes are `Nat`.
`bytes.Contains(data, []byte{0})` scans the whole buffer; the non-text
ratio is computed with Go integer division over the first 8192 bytes. -/
def isBinaryFile (data : List Nat) : Bool :=
  if data.contains 0 then true
  else if data.length > 0 then
    let sampleSize := min data.length 8192
    let nonTextCount := ((data.take sampleSize).filter isNonText).length
    if sampleSize > 0 && nonTextCount * 100 / sampleSize > 30 then true
    else false
  else false

/-- The binary classifier exactly as the claim words it (spec wording):
NUL in the first 8 KiB only, and an exact "more than 30%" ratio. -/
def claimBinaryFile (data : List Nat) : Bool :=
  let sample := data.take 8192
  if sample.contains 0 then true
  else if data.length > 0 then
    let sampleSize := min data.length 8192
    let nonTextCount := (sample.filter isNonText).length
    if nonTextCount * 100 > 30 * sampleSize then true else false
  else false

/-! ## Git data model (git/types.go, git/status.go) -/

/-- Go `git.FileStatus`. -/
inductive FileStatus
  | Staged
  | Unstaged
  | Untracked
  deriving Repr, DecidableEq

/-- Go `git.FileItem`. -/
structure FileItem where
  Path : String
  Status : FileStatus
  StatusSymbol : String
  Selected : Bool
  deriving Repr, DecidableEq

/-- Go `git.GitStatus`. -/
structure GitStatus where
  Staged : List String
  Unstaged : List String
  Untracked : List String
  Branch : String
  IsClean : Bool
  deriving Repr, DecidableEq

/-- Go `git.CommitInfo`. -/
structure CommitInfo where
  Hash : String
  ShortHash : String
  Message : String
  Author : String
  Date : String
  IsPushed : Bool
  deriving Repr, DecidableEq

/-- Go `git.NewFileItem`. -/
def NewFileItem (path : String) (status : FileStatus) : FileItem :=
  { Path := path
    Status := status
    StatusSymbol :=
      match status with
      | .Staged => "+"
      | .Unstaged => "-"
      | .Untracked => "?"
    Selected := false }

/-- Go `GitStatus.AllFiles`: unstaged, then staged, then untracked. -/
def GitStatus.AllFiles (s : GitStatus) : List FileItem :=
  (s.Unstaged.map (fun f => NewFileItem f .Unstaged)) ++
    (s.Staged.map (fun f => NewFileItem f .Staged)) ++
    (s.Untracked.map (fun f => NewFileItem f .Untracked))

/-- Go `GitStatus.StagedCount`. -/
def GitStatus.StagedCount (s : GitStatus) : Nat :=
  s.Staged.length

/-! ## Small association-map helpers

Go maps (`map[int]bool`, `map[string]string`) are modelled as association
lists with insert-or-replace and a lookup that returns the zero value on a
missing key, matching Go map semantics. -/

/-- Lookup in an association list. -/
def mlookup [BEq κ] (m : List (κ × β)) (k : κ) : Option β :=
  match m.find? (fun p => p.1 == k) with
  | some p => some p.2
  | none => none

/-- Insert-or-replace in an association list. -/
def minsert [BEq κ] (m : List (κ × β)) (k : κ) (v : β) : List (κ × β) :=
  if m.any (fun p => p.1 == k) then
    m.map (fun p => if p.1 == k then (k, v) else p)
  else m ++ [(k, v)]

/-- Go `m.selectedFiles[index]`: missing keys read as `false`. -/
def selGet (m : List (Int × Bool)) (k : Int) : Bool :=
  (mlookup m k).getD false

/-- Replace the element at one position, the rest untouched
(Go `m.files[index].Selected = v` on a slice). -/
def modifyAt (i : Nat) (f : α → α) : List α → List α
  | [] => []
  | x :: xs =>
    match i with
    | 0 => f x :: xs
    | j + 1 => x :: modifyAt j f xs

/-! ## Application model (main.go `Model`)

Fields of external widgets (bubbles list / viewport / textarea / textinput)
are reduced to the data the program reads back from them: the list cursor
index and items, the viewport size, offset and content, and each text
widget's value.  Focus/blur calls carry no observable state here and are
dropped. -/

/-- Go `AppState`. -/
inductive AppState
  | FileList
  | CommitMessage
  | CommitDate
  | ModifyHead
  | Help
  deriving Repr, DecidableEq

/-- Go `CommitState`. -/
inductive CommitState
  | Message
  | Date
  | Confirm
  deriving Repr, DecidableEq

/-- Go `HeadModifyState`. -/
inductive HeadModifyState
  | Menu
  | AmendMessage
  | AmendFiles
  deriving Repr, DecidableEq

/-- Go `Model` (main.go), restricted to the state the update loop reads or
writes.  `listIndex`/`listItems` stand for `m.list.Index()`/its items,
`viewport*` for the preview viewport, and the three text widgets are their
string values. -/
structure Model where
  state : AppState
  width : Int
  height : Int
  ready : Bool
  err : String
  status : String
  processing : Bool
  files : List FileItem
  gitStatus : GitStatus
  listIndex : Int
  listItems : List FileItem
  selectedFiles : List (Int × Bool)
  showPreview : Bool
  previewFocused : Bool
  lastFileIndex : Int
  previewContent : String
  viewportContent : String
  viewportHeight : Int
  viewportYOffset : Int
  diffCache : List (String × String)
  layout : Layout
  commitTextarea : String
  commitInput : String
  commitMessage : String
  commitDate : String
  commitState : CommitState
  headInfo : Option CommitInfo
  headModifyState : HeadModifyState
  headMessageTextarea : String
  deriving Repr, DecidableEq

/-! ## Messages and commands -/

/-- The typed result messages of the update loop (commands.go, main.go),
plus terminal key input.  A Go `error` is `Option String` carrying the
rendered error text (`none` = nil). -/
inductive Msg
  | key (k : String)
  | gitStatusMsg (status : GitStatus)
  | errorMsg (err : String)
  | statusMsg (msg : String)
  | gitStageMsg (files : List String) (err : Option String)
  | gitUnstageMsg (files : List String) (err : Option String)
  | gitRefreshMsg
  | gitDiffMsg (file : String) (content : String) (err : Option String)
  | gitCommitMsg (success : Bool) (err : Option String) (message : String)
  | gitHeadInfoMsg (info : Option CommitInfo)
  | gitAmendMsg (success : Bool) (err : Option String) (message : String)
  deriving Repr, DecidableEq

/-- Dispatched `tea.Cmd` values, by their constructor in the source.
`emit` is an inline closure returning a fixed message; `widgetCmd` is the
opaque command returned by an external bubbles widget update. -/
inductive Cmd
  | quit
  | clearStatus
  | clearError
  | refreshStatusCmd
  | fetchDiffCmd (file : FileItem)
  | toggleSelectionCmd (files : List FileItem)
  | emit (msg : Msg)
  | commitCmd (message : String) (date : String)
  | fetchHeadInfo
  | amendMessageCmd (message : String)
  | softResetHeadCmd
  | widgetCmd
  deriving Repr, DecidableEq

/-! ## Selection model (main.go) -/

/-- Go `(*Model).toggleSelection`. -/
def toggleSelection (m : Model) (index : Int) : Model :=
  if index < 0 ∨ index ≥ (m.files.length : Int) then m
  else
    let newVal := !(selGet m.selectedFiles index)
    let files := modifyAt index.toNat (fun f => { f with Selected := newVal }) m.files
    { m with selectedFiles := minsert m.selectedFiles index newVal
             files := files
             listItems := files }

/-- Go `(*Model).selectAll`. -/
def selectAll (m : Model) : Model :=
  let sel := (List.range m.files.length).foldl
    (fun acc i => minsert acc (i : Int) true) m.selectedFiles
  let files := m.files.map (fun f => { f with Selected := true })
  { m with selectedFiles := sel, files := files, listItems := files }

/-- Go `(*Model).deselectAll`: the position map is replaced by a fresh
empty map and every entry flag is reset. -/
def deselectAll (m : Model) : Model :=
  let files := m.files.map (fun f => { f with Selected := false })
  { m with selectedFiles := [], files := files, listItems := files }

/-- Go `(*Model).getSelectedFiles`. -/
def getSelectedFiles (m : Model) : List FileItem :=
  ((m.files.enum).filter (fun p => selGet m.selectedFiles (p.1 : Int))).map
    (fun p => p.2)

/-- Go `(*Model).getCurrentFile`. -/
def getCurrentFile (m : Model) : Option FileItem :=
  if m.listIndex < 0 ∨ m.listIndex ≥ (m.files.length : Int) then none
  else m.files.get? m.listIndex.toNat

/-- Go `(*Model).applySelection`: marks processing and schedules the
toggle-selection unit of work batched with an inline `gitRefreshMsg`
producer. -/
def applySelection (m : Model) : Model × List Cmd :=
  let selected := getSelectedFiles m
  if selected.length == 0 then
    (m, [Cmd.emit (Msg.statusMsg "No files selected")])
  else
    ({ m with processing := true },
      [Cmd.toggleSelectionCmd selected, Cmd.emit Msg.gitRefreshMsg])

/-! ## Mode-entry helpers (main.go) -/

/-- Go `(*Model).enterCommitMode`. -/
def enterCommitMode (m : Model) : Model :=
  { m with state := .CommitMessage
           commitState := .Message
           commitMessage := ""
           commitDate := ""
           commitTextarea := "" }

/-- Go `(*Model).proceedToDateInput`. -/
def proceedToDateInput (m : Model) : Model :=
  { m with commitState := .Date, commitInput := "" }

/-- Go `(*Model).cancelCommit`. -/
def cancelCommit (m : Model) : Model :=
  { m with state := .FileList, commitMessage := "", commitDate := "" }

/-- Go `(*Model).enterModifyHeadMode`. -/
def enterModifyHeadMode (m : Model) : Model :=
  { m with state := .ModifyHead, headModifyState := .Menu }

/-- Go `(*Model).enterAmendMessageMode`. -/
def enterAmendMessageMode (m : Model) : Model :=
  { m with headModifyState := .AmendMessage
           headMessageTextarea :=
             match m.headInfo with
             | some info => info.Message
             | none => m.headMessageTextarea }

/-- Go `(*Model).cancelModifyHead`. -/
def cancelModifyHead (m : Model) : Model :=
  { m with state := .FileList, headModifyState := .Menu, headInfo := none }

/-! ## Keybindings (ui/keys.go, `DefaultKeyMap`)

A key press is its bubbletea string; `key.Matches` against a binding is
membership in that binding's key set. -/

def matchesQuit (k : String) : Bool := k == "q" || k == "ctrl+c"
def matchesSelect (k : String) : Bool := k == "space" || k == "tab"
def matchesSelectAll (k : String) : Bool := k == "a"
def matchesDeselect (k : String) : Bool := k == "d"
def matchesTogglePreview (k : String) : Bool := k == "p" || k == "P"
def matchesToggleHelp (k : String) : Bool := k == "?"
def matchesUp (k : String) : Bool := k == "up" || k == "k"
def matchesDown (k : String) : Bool := k == "down" || k == "j"
def matchesHome (k : String) : Bool := k == "home" || k == "g"
def matchesEnd (k : String) : Bool := k == "end" || k == "G"
def matchesApply (k : String) : Bool := k == "enter"
def matchesCommit (k : String) : Bool := k == "c"
def matchesModifyHead (k : String) : Bool := k == "m"

/-- Cursor motion of the external bubbles list widget, modelled as clamped
index moves over the current items (the widget is an external collaborator;
only the resulting `Index()` is read back by the program). -/
def listNav (len : Nat) (idx : Int) (k : String) : Int :=
  if matchesUp k then (if idx > 0 then idx - 1 else idx)
  else if matchesDown k then (if idx < (len : Int) - 1 then idx + 1 else idx)
  else if matchesHome k then 0
  else if matchesEnd k then (if len == 0 then idx else (len : Int) - 1)
  else idx

/-! ## Key handlers (update.go) -/

/-- The shared tail of the Up/Down/Home/End cases in `handleFileListKeys`:
let the list widget handle navigation, then fetch a fresh diff when the
cursor moved to a different entry. -/
def navStep (m : Model) (k : String) : Model × List Cmd :=
  let m : Model := { m with listIndex := listNav m.listItems.length m.listIndex k }
  let currentIndex := m.listIndex
  if m.showPreview && decide (0 ≤ currentIndex) &&
      !(currentIndex == m.lastFileIndex) then
    let m : Model := { m with lastFileIndex := currentIndex }
    match getCurrentFile m with
    | some f => ({ m with previewContent := "" }, [Cmd.widgetCmd, Cmd.fetchDiffCmd f])
    | none => (m, [Cmd.widgetCmd])
  else (m, [Cmd.widgetCmd])

/-- Go `handleFileListKeys` (update.go).  The Up/Down preview-scroll guard
compares the viewport height against the line count of the preview text.
In the Apply case the source is `return m, m.applySelection()`: the model
operand is read before the method call runs, so the `processing` write made
inside `applySelection` is not part of the returned model, while the status
text set by the preceding statement is. -/
def handleFileListKeys (m : Model) (k : String) : Model × List Cmd :=
  if matchesQuit k then (m, [Cmd.quit])
  else if matchesSelect k then (toggleSelection m m.listIndex, [])
  else if matchesSelectAll k then (selectAll m, [])
  else if matchesDeselect k then (deselectAll m, [])
  else if matchesTogglePreview k then
    (if m.showPreview && m.layout.HasPreviewPane then
      { m with previewFocused := !m.previewFocused }
     else m, [])
  else if matchesToggleHelp k then
    (if m.state == .FileList then { m with state := .Help }
     else { m with state := .FileList }, [])
  else if matchesUp k then
    if m.previewFocused &&
        decide (m.viewportHeight < ((m.previewContent.splitOn "\n").length : Int)) then
      ({ m with viewportYOffset := max 0 (m.viewportYOffset - 3) }, [])
    else navStep m k
  else if matchesDown k then
    if m.previewFocused &&
        decide (m.viewportHeight < ((m.previewContent.splitOn "\n").length : Int)) then
      ({ m with viewportYOffset := m.viewportYOffset + 3 }, [])
    else navStep m k
  else if matchesHome k then navStep m k
  else if matchesEnd k then navStep m k
  else if matchesApply k then
    let selected := getSelectedFiles m
    if selected.length == 0 then
      ({ m with status := "No files selected" }, [Cmd.clearStatus])
    else
      let m : Model := { m with status :=
        "Processing " ++ toString selected.length ++ " file(s)..." }
      (m, (applySelection m).2)
  else if matchesCommit k then
    if m.gitStatus.StagedCount == 0 then
      ({ m with status := "No files staged" }, [Cmd.clearStatus])
    else (enterCommitMode m, [])
  else if matchesModifyHead k then
    ({ (enterModifyHeadMode m) with processing := true }, [Cmd.fetchHeadInfo])
  else (m, [])

/-- Go `handleCommitMessageKeys`.  Plain input goes to the external
textarea widget, modelled as appending the key. -/
def handleCommitMessageKeys (m : Model) (k : String) : Model × List Cmd :=
  if k == "ctrl+d" then
    let m : Model := { m with commitMessage := m.commitTextarea }
    if m.commitMessage == "" then
      ({ m with err := "Commit message cannot be empty" }, [Cmd.clearError])
    else (proceedToDateInput m, [])
  else if k == "esc" then (cancelCommit m, [])
  else ({ m with commitTextarea := m.commitTextarea ++ k }, [Cmd.widgetCmd])

/-- Go `handleCommitDateKeys`. -/
def handleCommitDateKeys (m : Model) (k : String) : Model × List Cmd :=
  if k == "enter" then
    let m : Model := { m with commitDate := m.commitInput }
    (m, [Cmd.commitCmd m.commitMessage m.commitDate])
  else if k == "esc" then
    ({ m with commitState := .Message, commitInput := "" }, [])
  else ({ m with commitInput := m.commitInput ++ k }, [Cmd.widgetCmd])

/-- Go `handleCommitKeys`. -/
def handleCommitKeys (m : Model) (k : String) : Model × List Cmd :=
  match m.commitState with
  | .Message => handleCommitMessageKeys m k
  | .Date => handleCommitDateKeys m k
  | .Confirm => (m, [])

/-- Go `handleHelpKeys`. -/
def handleHelpKeys (m : Model) (k : String) : Model × List Cmd :=
  if matchesToggleHelp k || matchesQuit k then
    ({ m with state := .FileList }, [])
  else (m, [])

/-- Go `handleHeadMenuKeys`. -/
def handleHeadMenuKeys (m : Model) (k : String) : Model × List Cmd :=
  if k == "m" then (enterAmendMessageMode m, [])
  else if k == "f" then
    ({ m with processing := true }, [Cmd.softResetHeadCmd])
  else if k == "esc" || k == "q" then (cancelModifyHead m, [])
  else (m, [])

/-- Go `handleHeadAmendMessageKeys`. -/
def handleHeadAmendMessageKeys (m : Model) (k : String) : Model × List Cmd :=
  if k == "ctrl+d" then
    let newMessage := m.headMessageTextarea
    if newMessage == "" then
      ({ m with err := "Commit message cannot be empty" }, [Cmd.clearError])
    else
      ({ m with processing := true }, [Cmd.amendMessageCmd newMessage])
  else if k == "esc" then
    ({ m with headModifyState := .Menu, headMessageTextarea := "" }, [])
  else
    ({ m with headMessageTextarea := m.headMessageTextarea ++ k }, [Cmd.widgetCmd])

/-- Go `handleHeadAmendFilesKeys`. -/
def handleHeadAmendFilesKeys (m : Model) (_k : String) : Model × List Cmd :=
  (cancelModifyHead m, [])

/-- Go `handleModifyHeadKeys`. -/
def handleModifyHeadKeys (m : Model) (k : String) : Model × List Cmd :=
  match m.headModifyState with
  | .Menu => handleHeadMenuKeys m k
  | .AmendMessage => handleHeadAmendMessageKeys m k
  | .AmendFiles => handleHeadAmendFilesKeys m k

/-- Go `handleKeyMsg`: route by application state (the `default` arm of the
Go switch also lands in the file-list handler; `AppState` is exhaustive
here). -/
def handleKeyMsg (m : Model) (k : String) : Model × List Cmd :=
  match m.state with
  | .FileList => handleFileListKeys m k
  | .CommitMessage => handleCommitKeys m k
  | .CommitDate => handleCommitKeys m k
  | .ModifyHead => handleModifyHeadKeys m k
  | .Help => handleHelpKeys m k

/-! ## The update loop (update.go, `Update`)

The `tea.WindowSizeMsg` case and the trailing widget fall-through are not
reachable from the typed messages modelled here: every `Msg` constructor
below returns inside the Go type switch. -/

/-- Go `Update` (update.go) on the message types the claims concern. -/
def Update (m : Model) (msg : Msg) : Model × List Cmd :=
  match msg with
  | .key k =>
    if !(m.err == "") then
      if matchesQuit k then (m, [Cmd.quit]) else (m, [])
    else handleKeyMsg m k
  | .gitStatusMsg status =>
    let files := status.AllFiles
    let m : Model := { m with gitStatus := status, files := files, listItems := files }
    let m :=
      if m.listIndex < 0 ∧ 0 < files.length then { m with listIndex := 0 } else m
    if m.showPreview && decide (0 < files.length) && m.ready &&
        decide (0 ≤ m.listIndex) then
      let m : Model := { m with lastFileIndex := m.listIndex }
      match getCurrentFile m with
      | some f => (m, [Cmd.fetchDiffCmd f])
      | none => ({ m with lastFileIndex := -1 }, [])
    else ({ m with lastFileIndex := -1 }, [])
  | .errorMsg e =>
    let m : Model := { m with err := e }
    if e == "" then (m, []) else (m, [Cmd.clearError])
  | .statusMsg s =>
    let m : Model := { m with status := s }
    if s == "" then (m, []) else (m, [Cmd.clearStatus])
  | .gitStageMsg files err =>
    let m : Model := { m with processing := false }
    match err with
    | some e => ({ m with err := e }, [Cmd.clearError])
    | none =>
      let m : Model := { m with status := "Staged " ++ toString files.length ++ " file(s)" }
      let m := deselectAll m
      (m, [Cmd.refreshStatusCmd, Cmd.clearStatus])
  | .gitUnstageMsg files err =>
    let m : Model := { m with processing := false }
    match err with
    | some e => ({ m with err := e }, [Cmd.clearError])
    | none =>
      let m : Model := { m with status := "Unstaged " ++ toString files.length ++ " file(s)" }
      let m := deselectAll m
      (m, [Cmd.refreshStatusCmd, Cmd.clearStatus])
  | .gitRefreshMsg => (m, [Cmd.refreshStatusCmd])
  | .gitDiffMsg _ content err =>
    let pc :=
      match err with
      | some e => "Error loading diff: " ++ e
      | none => content
    ({ m with previewContent := pc, viewportContent := pc }, [])
  | .gitCommitMsg _ err message =>
    match err with
    | some e => ({ m with err := "Commit failed: " ++ e }, [Cmd.clearError])
    | none =>
      ({ m with status := message
                state := .FileList
                commitMessage := ""
                commitDate := "" },
        [Cmd.refreshStatusCmd, Cmd.clearStatus])
  | .gitHeadInfoMsg info => ({ m with headInfo := info }, [])
  | .gitAmendMsg _ err message =>
    match err with
    | some e => ({ m with err := "Amendment failed: " ++ e }, [Cmd.clearError])
    | none =>
      ({ m with status := message
                state := .FileList
                headInfo := none },
        [Cmd.refreshStatusCmd, Cmd.clearStatus])

/-! ## Units of work (commands.go)

A unit of work reads an immutable input and the external git backend, and
produces one result message.  The backend is a parameter; each invocation
it receives is also recorded as a `GitCall`, so theorems can count backend
calls.  Go `[]byte` file content is `List Nat`; the Go `string(bytes)`
view of it is `stringOfBytes`. -/

/-- The git/filesystem collaborator behind commands.go.  `Option String`
error results carry the rendered error text (`none` = nil error). -/
structure Backend where
  diff : String → Bool → Except String String
  readFile : String → Except String (List Nat)
  stage : List String → Option String
  unstage : List String → Option String

/-- One recorded backend invocation. -/
inductive GitCall
  | stageCall (paths : List String)
  | unstageCall (paths : List String)
  | diffCall (path : String) (staged : Bool)
  | readCall (path : String)
  deriving Repr, DecidableEq

/-- Go `string(contentBytes)` for the preview. -/
def stringOfBytes (bs : List Nat) : String :=
  String.mk (bs.map Char.ofNat)

/-- Running Go `toggleSelectionCmd`'s unit of work: partition by status and
stage or unstage by majority (Go: stage when strictly more of the selected
files are not staged). -/
def toggleSelectionCmdRun (b : Backend) (files : List FileItem) :
    List GitCall × Msg :=
  let staged := (files.filter (fun f => f.Status == .Staged)).map (fun f => f.Path)
  let unstaged := (files.filter (fun f => !(f.Status == .Staged))).map (fun f => f.Path)
  if staged.length < unstaged.length then
    ([GitCall.stageCall unstaged],
      match b.stage unstaged with
      | some e => Msg.errorMsg ("Failed to stage files: " ++ e)
      | none => Msg.statusMsg ("Staged " ++ toString unstaged.length ++ " file(s)"))
  else
    ([GitCall.unstageCall staged],
      match b.unstage staged with
      | some e => Msg.errorMsg ("Failed to unstage files: " ++ e)
      | none => Msg.statusMsg ("Unstaged " ++ toString staged.length ++ " file(s)"))

/-- Output of one diff-fetch unit of work: the diff cache after the run
(the Go cache is a shared map, mutated in place by the closure), the calls
made against the backend, and the produced `gitDiffMsg` payload (its `err`
field is nil on every path of the source). -/
structure DiffFetchResult where
  cache : List (String × String)
  calls : List GitCall
  file : String
  content : String
  deriving Repr, DecidableEq

/-- Running Go `fetchDiffCmd`'s unit of work (commands.go). -/
def fetchDiffCmdRun (b : Backend) (cache : List (String × String))
    (file : FileItem) : DiffFetchResult :=
  match mlookup cache file.Path with
  | some content => ⟨cache, [], file.Path, content⟩
  | none =>
    match file.Status with
    | .Untracked =>
      match b.readFile file.Path with
      | .error e =>
        ⟨cache, [GitCall.readCall file.Path], file.Path,
          "Error reading file: " ++ e⟩
      | .ok bytes =>
        let content :=
          if isBinaryFile bytes then "[BINARY] File cannot be previewed"
          else stringOfBytes bytes
        ⟨minsert cache file.Path content, [GitCall.readCall file.Path],
          file.Path, content⟩
    | .Staged =>
      fetchTrackedDiff b cache file.Path true
    | .Unstaged =>
      fetchTrackedDiff b cache file.Path false
where
  /-- The staged/unstaged arms of the Go switch plus the shared tail:
  on a backend error return the error text uncached; on an empty diff fall
  back to raw file content (or an explanatory placeholder), then cache. -/
  fetchTrackedDiff (b : Backend) (cache : List (String × String))
      (path : String) (stagedFlag : Bool) : DiffFetchResult :=
    match b.diff path stagedFlag with
    | .error e =>
      ⟨cache, [GitCall.diffCall path stagedFlag], path,
        "Error loading diff: " ++ e⟩
    | .ok content =>
      if content == "" then
        match b.readFile path with
        | .ok bytes =>
          let content :=
            if isBinaryFile bytes then "[BINARY] File cannot be previewed"
            else stringOfBytes bytes
          ⟨minsert cache path content,
            [GitCall.diffCall path stagedFlag, GitCall.readCall path],
            path, content⟩
        | .error e =>
          let content :=
            "(File has no changes)\n\nCould not read file: " ++ e
          ⟨minsert cache path content,
            [GitCall.diffCall path stagedFlag, GitCall.readCall path],
            path, content⟩
      else
        ⟨minsert cache path content, [GitCall.diffCall path stagedFlag],
          path, content⟩

/-- Number of `Diff` backend invocations among recorded calls. -/
def diffCallCount (calls : List GitCall) : Nat :=
  (calls.filter (fun c =>
    match c with
    | GitCall.diffCall _ _ => true
    | _ => false)).length

/-! ## Concrete fixtures for witnesses and scenario runs -/

/-- A freshly initialised model shaped like Go `NewModel` with an empty
repository snapshot (preview hidden so scenario runs stay focused on the
state the claims observe). -/
def base : Model :=
  { state := .FileList
    width := 80
    height := 24
    ready := false
    err := ""
    status := ""
    processing := false
    files := []
    gitStatus :=
      { Staged := [], Unstaged := [], Untracked := [], Branch := "main", IsClean := true }
    listIndex := 0
    listItems := []
    selectedFiles := []
    showPreview := false
    previewFocused := false
    lastFileIndex := -1
    previewContent := ""
    viewportContent := ""
    viewportHeight := 10
    viewportYOffset := 0
    diffCache := []
    layout := NewLayout 80 24
    commitTextarea := ""
    commitInput := ""
    commitMessage := ""
    commitDate := ""
    commitState := .Message
    headInfo := none
    headModifyState := .Menu
    headMessageTextarea := "" }

/-- Snapshot with one unstaged file. -/
def snapA : GitStatus :=
  { Staged := [], Unstaged := ["a.txt"], Untracked := [], Branch := "main", IsClean := false }

/-- Snapshot after `a.txt` has been staged. -/
def snapB : GitStatus :=
  { Staged := ["a.txt"], Unstaged := [], Untracked := [], Branch := "main", IsClean := false }

/-- A backend whose operations all succeed. -/
def okBackend : Backend :=
  { diff := fun _ _ => .ok ""
    readFile := fun _ => .ok []
    stage := fun _ => none
    unstage := fun _ => none }

/-- A backend whose operations all fail. -/
def failBackend : Backend :=
  { diff := fun _ _ => .error "boom"
    readFile := fun _ => .error "denied"
    stage := fun _ => some "boom"
    unstage := fun _ => some "boom" }

/-- A backend whose diff returns a fixed non-empty text. -/
def okDiffBackend : Backend :=
  { diff := fun _ _ => .ok "DIFF"
    readFile := fun _ => .ok []
    stage := fun _ => none
    unstage := fun _ => none }

/-- Sample HEAD metadata. -/
def headInfoSample : CommitInfo :=
  { Hash := "abc123def", ShortHash := "abc123", Message := "subject line",
    Author := "someone", Date := "2 days ago", IsPushed := false }

/-- Model whose list cursor sits on `b.txt`. -/
def mStale : Model :=
  { base with files := [NewFileItem "b.txt" .Unstaged]
              listItems := [NewFileItem "b.txt" .Unstaged]
              listIndex := 0
              previewContent := "old preview"
              showPreview := true }

/-- 200 bytes of which 30.5% are non-text (byte 1) and the rest printable. -/
def mixedBuffer : List Nat :=
  List.replicate 61 1 ++ List.replicate 139 97

/-- 8193 printable bytes except for a NUL after the 8 KiB sample boundary. -/
def lateNulBuffer : List Nat :=
  List.replicate 8192 97 ++ [0]

/-- Model whose snapshot has one unstaged file `a.txt` and nothing staged. -/
def mUnstagedA : Model :=
  { base with gitStatus := snapA, files := snapA.AllFiles, listItems := snapA.AllFiles }

/-- Model sitting in the HEAD-modify menu. -/
def mHeadMenu : Model :=
  { base with state := .ModifyHead, headModifyState := .Menu }

/-- Model in the commit flow, date sub-state, with a drafted message. -/
def mCommitDate : Model :=
  { base with state := .CommitMessage, commitState := .Date,
              commitMessage := "fix: bug", commitDate := "" }

/-- Model in the amend-message input with a drafted replacement message. -/
def mAmendMsg : Model :=
  { base with state := .ModifyHead, headModifyState := .AmendMessage,
              headMessageTextarea := "new subject" }

/-- A key handler treats the `processing` flag as write-only: the commands
it dispatches and every other field of the model it produces do not depend
on the flag's incoming value — the flag never gates input handling. -/
def ProcWriteOnly (f : Model → String → Model × List Cmd) : Prop :=
  ∀ m k b, (f { m with processing := b } k).2 = (f m k).2 ∧
    { (f { m with processing := b } k).1 with processing := false } =
      { (f m k).1 with processing := false }

/-! ## Claim theorems -/

/-- For any buffer of printable bytes with a NUL appended after the 8 KiB
boundary, the code classifies binary (its NUL scan is unbounded) while the
claim's wording classifies text (its NUL is outside the sample and the
sample is fully printable). -/
theorem binary_late_nul_general (n : Nat) (h : 8192 ≤ n) :
    isBinaryFile (List.replicate n 97 ++ [0]) = true ∧
      claimBinaryFile (List.replicate n 97 ++ [0]) = false := by
  have htake : (List.replicate n (97:Nat) ++ [0]).take 8192 = List.replicate 8192 97 := by
    rw [List.take_append_of_le_length (by simpa using h), List.take_replicate]
    congr 1
    omega
  have hcont : ∀ k : Nat, (List.replicate k (97:Nat)).contains 0 = false := by
    intro k
    simp [List.contains]
  have hp : isNonText 97 = false := rfl
  have hfilter : ∀ k : Nat, (List.replicate k (97:Nat)).filter isNonText = [] := by
    intro k
    rw [List.filter_replicate, hp]
    simp
  constructor
  · unfold isBinaryFile
    rw [if_pos (by simp [List.contains])]
  · unfold claimBinaryFile
    simp only [htake, hfilter]
    rw [if_neg (by rw [hcont 8192]; simp)]
    rw [if_pos (by simp)]
    rw [if_neg (by simp)]

/-- C6 counterexample: at terminal width 10 the claim demands list width
`10 - 2 = 8`, but the minimum-width clamp forces 30 (preview stays
disabled). -/
theorem layout_narrow_counterexample :
    (NewLayout 10 24).PreviewWidth = 0 ∧
      (NewLayout 10 24).ListWidth = 30 ∧
      ¬((NewLayout 10 24).ListWidth = 10 - 2) := by
  decide

/-- C6 (amended): for every width strictly below 100 the preview pane is
disabled and the list width is `width - 2` clamped from below to 30. -/
theorem layout_narrow_amended (w h : Int) (hw : w < 100) :
    (NewLayout w h).PreviewWidth = 0 ∧
      (NewLayout w h).ListWidth = max (w - 2) 30 ∧
      (NewLayout w h).HasPreviewPane = false := by
  unfold NewLayout Layout.HasPreviewPane
  simp only [if_pos hw]
  split <;> simp <;> omega

/-- C6 witness: the amended layout statement evaluated at width 50. -/
theorem layout_narrow_amended_witness :
    (50 : Int) < 100 ∧
      ((NewLayout 50 24).PreviewWidth = 0 ∧
        (NewLayout 50 24).ListWidth = max (50 - 2) 30 ∧
        (NewLayout 50 24).HasPreviewPane = false) :=
  ⟨by decide, layout_narrow_amended 50 24 (by decide)⟩

/-- C10: toggling a selection at any index outside `[0, #files)` leaves the
model (selection map, entry flags, displayed items, everything) unchanged. -/
theorem toggleSelection_out_of_range (m : Model) (i : Int)
    (h : i < 0 ∨ (m.files.length : Int) ≤ i) :
    toggleSelection m i = m := by
  unfold toggleSelection
  exact if_pos h

/-- C10 witness: the out-of-range toggle at index `-1` on a concrete
model. -/
theorem toggleSelection_out_of_range_witness :
    ((-1 : Int) < 0 ∨ (base.files.length : Int) ≤ -1) ∧
      toggleSelection base (-1) = base :=
  ⟨Or.inl (by decide), toggleSelection_out_of_range base (-1) (Or.inl (by decide))⟩

/-- C1 (code bug): with `b.txt` selected, a diff result for `a.txt` is
still written to the preview; the handler never compares the result's path
with the current selection, so no stale result is discarded. -/
theorem stale_diff_result_applied :
    getCurrentFile mStale = some (NewFileItem "b.txt" FileStatus.Unstaged) ∧
      ¬("a.txt" = "b.txt") ∧
      Update mStale (Msg.gitDiffMsg "a.txt" "STALE" none) =
        ({ mStale with previewContent := "STALE", viewportContent := "STALE" }, []) := by
  decide

set_option maxRecDepth 20000 in
/-- C7 counterexample: the classifier disagrees with the claim's wording in
both directions.  A 200-byte buffer with 30.5% non-text bytes is "more
than 30%" by the claim but text for the code (integer division floors the
ratio to 30); a buffer whose only NUL sits after the 8 KiB sample boundary
is text by the claim but binary for the code (the NUL scan covers the whole
buffer). -/
theorem binary_detection_counterexample :
    (claimBinaryFile mixedBuffer = true ∧ isBinaryFile mixedBuffer = false) ∧
      (isBinaryFile lateNulBuffer = true ∧ claimBinaryFile lateNulBuffer = false) := by
  constructor
  · exact ⟨rfl, rfl⟩
  · exact binary_late_nul_general 8192 (by omega)

/-- C7 (amended): the classifier reports binary exactly when the whole
buffer contains a NUL byte, or the buffer is non-empty and at least 31% of
the sampled prefix (first 8 KiB) is outside the allowed byte set — the
integer ratio `count*100/size` must exceed 30, i.e. `31*size ≤ count*100`. -/
theorem isBinaryFile_iff_amended (data : List Nat) :
    isBinaryFile data = true ↔
      (data.contains 0 = true ∨
        (0 < data.length ∧
          31 * min data.length 8192 ≤
            ((data.take 8192).filter isNonText).length * 100)) := by
  unfold isBinaryFile
  by_cases hc : data.contains 0 = true
  · rw [if_pos hc]
    exact ⟨fun _ => Or.inl hc, fun _ => rfl⟩
  · rw [Bool.not_eq_true] at hc
    rw [hc]
    by_cases hl : 0 < data.length
    · have hs : data.take (min data.length 8192) = data.take 8192 := by
        rcases le_or_lt data.length 8192 with hle | hlt
        · rw [min_eq_left hle, List.take_length, List.take_of_length_le hle]
        · rw [min_eq_right hlt.le]
      have hpos : 0 < min data.length 8192 := lt_min hl (by norm_num)
      have harith :
          30 < (((data.take 8192).filter isNonText).length * 100) / (min data.length 8192) ↔
            31 * min data.length 8192 ≤ ((data.take 8192).filter isNonText).length * 100 :=
        Nat.le_div_iff_mul_le hpos
      simp only [Bool.false_eq_true, if_false, false_or, if_pos hl, hs]
      simp only [Bool.and_eq_true, decide_eq_true_eq, gt_iff_lt]
      constructor
      · intro h
        split at h
        · next hcond => exact ⟨hl, harith.mp hcond.2⟩
        · simp at h
      · rintro ⟨h1, h2⟩
        rw [if_pos ⟨hpos, harith.mpr h2⟩]
    · have h0 : data.length = 0 := by omega
      simp [h0]


/-- C9: pressing the commit key in the file list with zero staged files
changes nothing but the ephemeral status text "No files staged" (the state
stays `FileList` and every commit sub-state field is untouched). -/
theorem commit_key_no_staged (m : Model)
    (h1 : m.err = "") (h2 : m.state = .FileList) (h3 : m.gitStatus.Staged = []) :
    Update m (Msg.key "c") = ({ m with status := "No files staged" }, [Cmd.clearStatus]) := by
  have hsc : m.gitStatus.StagedCount = 0 := by
    rw [GitStatus.StagedCount, h3]
    rfl
  simp [Update, h1, handleKeyMsg, h2, handleFileListKeys, matchesQuit,
    matchesSelect, matchesSelectAll, matchesDeselect, matchesTogglePreview,
    matchesToggleHelp, matchesUp, matchesDown, matchesHome, matchesEnd,
    matchesApply, matchesCommit, matchesModifyHead, hsc]

/-- C9 witness: the commit key on the initial model with nothing staged. -/
theorem commit_key_no_staged_witness :
    (base.err = "" ∧ base.state = .FileList ∧ base.gitStatus.Staged = []) ∧
      Update base (Msg.key "c") =
        ({ base with status := "No files staged" }, [Cmd.clearStatus]) :=
  ⟨⟨rfl, rfl, rfl⟩, commit_key_no_staged base rfl rfl rfl⟩

/-- C5: a commit result arriving in the date sub-state.  Success moves to
the file list, clears the drafted message and date, and schedules a status
refresh; failure raises the error overlay and leaves the state, sub-state
and draft untouched. -/
theorem commit_result_in_date_state (m : Model) (e okmsg : String)
    (h1 : m.state = .CommitMessage) (h2 : m.commitState = .Date) :
    Update m (Msg.gitCommitMsg true none okmsg) =
      ({ m with status := okmsg, state := .FileList,
                commitMessage := "", commitDate := "" },
        [Cmd.refreshStatusCmd, Cmd.clearStatus]) ∧
    Update m (Msg.gitCommitMsg false (some e) okmsg) =
      ({ m with err := "Commit failed: " ++ e }, [Cmd.clearError]) ∧
    (Update m (Msg.gitCommitMsg false (some e) okmsg)).1.state = .CommitMessage ∧
    (Update m (Msg.gitCommitMsg false (some e) okmsg)).1.commitState = .Date ∧
    (Update m (Msg.gitCommitMsg false (some e) okmsg)).1.commitMessage = m.commitMessage ∧
    (Update m (Msg.gitCommitMsg false (some e) okmsg)).1.commitDate = m.commitDate := by
  refine ⟨rfl, rfl, ?_, ?_, rfl, rfl⟩ <;> simp [Update, h1, h2]

/-- C5 witness: commit results on a concrete model drafting "fix: bug". -/
theorem commit_result_in_date_state_witness :
    (mCommitDate.state = .CommitMessage ∧ mCommitDate.commitState = .Date) ∧
      (Update mCommitDate (Msg.gitCommitMsg true none "[OK] Commit created successfully") =
        ({ mCommitDate with status := "[OK] Commit created successfully",
                            state := .FileList, commitMessage := "", commitDate := "" },
          [Cmd.refreshStatusCmd, Cmd.clearStatus]) ∧
      Update mCommitDate (Msg.gitCommitMsg false (some "boom") "[OK] Commit created successfully") =
        ({ mCommitDate with err := "Commit failed: boom" }, [Cmd.clearError]) ∧
      (Update mCommitDate (Msg.gitCommitMsg false (some "boom") "[OK] Commit created successfully")).1.state = .CommitMessage ∧
      (Update mCommitDate (Msg.gitCommitMsg false (some "boom") "[OK] Commit created successfully")).1.commitState = .Date ∧
      (Update mCommitDate (Msg.gitCommitMsg false (some "boom") "[OK] Commit created successfully")).1.commitMessage = mCommitDate.commitMessage ∧
      (Update mCommitDate (Msg.gitCommitMsg false (some "boom") "[OK] Commit created successfully")).1.commitDate = mCommitDate.commitDate) :=
  ⟨⟨rfl, rfl⟩,
    commit_result_in_date_state mCommitDate "boom" "[OK] Commit created successfully" rfl rfl⟩

/-- C4 counterexample: from the HEAD-modify menu, the amend-files key
dispatches the soft reset, but when the reset's failure result is processed
the state is still `ModifyHead`, not `FileList` as the claim demands. -/
theorem soft_reset_failure_counterexample :
    (Update mHeadMenu (Msg.key "f")).2 = [Cmd.softResetHeadCmd] ∧
      (Update (Update mHeadMenu (Msg.key "f")).1
          (Msg.gitAmendMsg false (some "boom") "")).1.state = AppState.ModifyHead ∧
      ¬((Update (Update mHeadMenu (Msg.key "f")).1
          (Msg.gitAmendMsg false (some "boom") "")).1.state = AppState.FileList) := by
  decide

/-- C4 (amended): pressing the amend-files key in ModifyHead(Menu)
dispatches the SoftReset command; processing a successful result moves the
state to `FileList`, while a failure shows the error banner and leaves the
state in ModifyHead(Menu). -/
theorem amend_files_key_and_result (m : Model) (e okmsg : String)
    (h1 : m.err = "") (h2 : m.state = .ModifyHead) (h3 : m.headModifyState = .Menu) :
    Update m (Msg.key "f") = ({ m with processing := true }, [Cmd.softResetHeadCmd]) ∧
    (Update m (Msg.gitAmendMsg true none okmsg)).1.state = .FileList ∧
    (Update m (Msg.gitAmendMsg false (some e) okmsg)).1.state = .ModifyHead ∧
    (Update m (Msg.gitAmendMsg false (some e) okmsg)).1.headModifyState = .Menu ∧
    (Update m (Msg.gitAmendMsg false (some e) okmsg)).1.err = "Amendment failed: " ++ e := by
  refine ⟨?_, rfl, ?_, ?_, rfl⟩
  · simp [Update, h1, handleKeyMsg, h2, handleModifyHeadKeys, h3, handleHeadMenuKeys]
  · simpa [Update] using h2
  · simpa [Update] using h3

/-- C4 witness: the amended soft-reset behavior on a concrete menu model. -/
theorem amend_files_key_and_result_witness :
    (mHeadMenu.err = "" ∧ mHeadMenu.state = .ModifyHead ∧ mHeadMenu.headModifyState = .Menu) ∧
      (Update mHeadMenu (Msg.key "f") = ({ mHeadMenu with processing := true }, [Cmd.softResetHeadCmd]) ∧
      (Update mHeadMenu (Msg.gitAmendMsg true none "ok")).1.state = .FileList ∧
      (Update mHeadMenu (Msg.gitAmendMsg false (some "boom") "ok")).1.state = .ModifyHead ∧
      (Update mHeadMenu (Msg.gitAmendMsg false (some "boom") "ok")).1.headModifyState = .Menu ∧
      (Update mHeadMenu (Msg.gitAmendMsg false (some "boom") "ok")).1.err = "Amendment failed: " ++ "boom") :=
  ⟨⟨rfl, rfl, rfl⟩, amend_files_key_and_result mHeadMenu "boom" "ok" rfl rfl rfl⟩

/-- C3 counterexample: entering the HEAD-modify flow sets `processing` and
dispatches the head-info fetch, but applying the fetch's result message
leaves `processing` still true — it is never reset for this operation. -/
theorem processing_not_cleared_counterexample :
    (Update base (Msg.key "m")).1.processing = true ∧
      (Update base (Msg.key "m")).2 = [Cmd.fetchHeadInfo] ∧
      (Update (Update base (Msg.key "m")).1
          (Msg.gitHeadInfoMsg (some headInfoSample))).1.processing = true := by
  decide

/-- C2 (code bug): the end-to-end apply-selection run on snapshot
`{unstaged:[a.txt]}`.  Toggling `a.txt` and applying issues the stage call
for `["a.txt"]` as claimed, but after the success message and the snapshot
refresh are processed, position 0 is still marked selected in the selection
map (only the rebuilt entry flags are clear), so the selection is not
empty. -/
theorem apply_selection_keeps_selection_map_entry :
    (Update mUnstagedA (Msg.key "space")).1.selectedFiles = [((0 : Int), true)] ∧
      (Update (Update mUnstagedA (Msg.key "space")).1 (Msg.key "enter")).2 =
        [Cmd.toggleSelectionCmd [{ Path := "a.txt", Status := .Unstaged,
                                   StatusSymbol := "-", Selected := true }],
          Cmd.emit Msg.gitRefreshMsg] ∧
      (toggleSelectionCmdRun okBackend
          (getSelectedFiles (Update mUnstagedA (Msg.key "space")).1)).1 =
        [GitCall.stageCall ["a.txt"]] ∧
      (toggleSelectionCmdRun okBackend
          (getSelectedFiles (Update mUnstagedA (Msg.key "space")).1)).2 =
        Msg.statusMsg "Staged 1 file(s)" ∧
      (let m2 := (Update (Update mUnstagedA (Msg.key "space")).1 (Msg.key "enter")).1
       let m3 := (Update m2 (Msg.statusMsg "Staged 1 file(s)")).1
       let m4 := (Update m3 Msg.gitRefreshMsg).1
       let m5 := (Update m4 (Msg.gitStatusMsg snapB)).1
       selGet m5.selectedFiles 0 = true ∧
         getSelectedFiles m5 = [NewFileItem "a.txt" FileStatus.Staged] ∧
         m5.files.all (fun f => !f.Selected) = true ∧
         (Update m4 (Msg.gitStatusMsg snapB)).2 = []) := by
  decide

/-! ## C3 support: the key handlers treat `processing` as write-only

`getCurrentFile` and `getSelectedFiles` ignore the `processing` field; the
`_mk` forms state this on an arbitrary model literal, the `_proc` form on a
flag update.  All are definitional. -/

theorem getCurrentFile_mk (a1 : AppState) (a2 a3 : Int) (a4 : Bool) (a5 a6 : String)
    (p : Bool) (a8 : List FileItem) (a9 : GitStatus) (a10 : Int) (a11 : List FileItem)
    (a12 : List (Int × Bool)) (a13 a14 : Bool) (a15 : Int) (a16 a17 : String)
    (a18 a19 : Int) (a20 : List (String × String)) (a21 : Layout)
    (a22 a23 a24 a25 : String) (a26 : CommitState) (a27 : Option CommitInfo)
    (a28 : HeadModifyState) (a29 : String) :
    getCurrentFile ⟨a1, a2, a3, a4, a5, a6, p, a8, a9, a10, a11, a12, a13, a14, a15,
        a16, a17, a18, a19, a20, a21, a22, a23, a24, a25, a26, a27, a28, a29⟩ =
      getCurrentFile ⟨a1, a2, a3, a4, a5, a6, false, a8, a9, a10, a11, a12, a13, a14, a15,
        a16, a17, a18, a19, a20, a21, a22, a23, a24, a25, a26, a27, a28, a29⟩ := rfl

theorem getSelectedFiles_mk (a1 : AppState) (a2 a3 : Int) (a4 : Bool) (a5 a6 : String)
    (p : Bool) (a8 : List FileItem) (a9 : GitStatus) (a10 : Int) (a11 : List FileItem)
    (a12 : List (Int × Bool)) (a13 a14 : Bool) (a15 : Int) (a16 a17 : String)
    (a18 a19 : Int) (a20 : List (String × String)) (a21 : Layout)
    (a22 a23 a24 a25 : String) (a26 : CommitState) (a27 : Option CommitInfo)
    (a28 : HeadModifyState) (a29 : String) :
    getSelectedFiles ⟨a1, a2, a3, a4, a5, a6, p, a8, a9, a10, a11, a12, a13, a14, a15,
        a16, a17, a18, a19, a20, a21, a22, a23, a24, a25, a26, a27, a28, a29⟩ =
      getSelectedFiles ⟨a1, a2, a3, a4, a5, a6, false, a8, a9, a10, a11, a12, a13, a14, a15,
        a16, a17, a18, a19, a20, a21, a22, a23, a24, a25, a26, a27, a28, a29⟩ := rfl

theorem getSelectedFiles_proc (m : Model) (b : Bool) :
    getSelectedFiles { m with processing := b } = getSelectedFiles m := rfl


set_option maxHeartbeats 1600000 in
theorem navStep_cmds (m : Model) (k : String) (b : Bool) :
    (navStep { m with processing := b } k).2 = (navStep m k).2 := by
  unfold navStep
  dsimp only []
  simp only [getCurrentFile_mk]
  repeat' split
  all_goals rfl

set_option maxHeartbeats 1600000 in
theorem navStep_model (m : Model) (k : String) (b : Bool) :
    { (navStep { m with processing := b } k).1 with processing := false } =
      { (navStep m k).1 with processing := false } := by
  unfold navStep
  dsimp only []
  simp only [getCurrentFile_mk]
  repeat' split
  all_goals rfl

set_option maxHeartbeats 4000000 in
theorem handleFileListKeys_procWriteOnly : ProcWriteOnly handleFileListKeys := by
  intro m k b
  unfold handleFileListKeys
  by_cases h1 : matchesQuit k = true
  · rw [if_pos h1, if_pos h1]
    exact ⟨rfl, rfl⟩
  rw [if_neg h1, if_neg h1]
  by_cases h2 : matchesSelect k = true
  · rw [if_pos h2, if_pos h2]
    refine ⟨rfl, ?_⟩
    dsimp only [toggleSelection]
    split <;> rfl
  rw [if_neg h2, if_neg h2]
  by_cases h3 : matchesSelectAll k = true
  · rw [if_pos h3, if_pos h3]
    refine ⟨rfl, ?_⟩
    dsimp only [selectAll]
    all_goals rfl
  rw [if_neg h3, if_neg h3]
  by_cases h4 : matchesDeselect k = true
  · rw [if_pos h4, if_pos h4]
    refine ⟨rfl, ?_⟩
    dsimp only [deselectAll]
    all_goals rfl
  rw [if_neg h4, if_neg h4]
  by_cases h5 : matchesTogglePreview k = true
  · rw [if_pos h5, if_pos h5]
    try dsimp only []
    refine ⟨?_, ?_⟩ <;> first | rfl | (split <;> rfl)
  rw [if_neg h5, if_neg h5]
  by_cases h6 : matchesToggleHelp k = true
  · rw [if_pos h6, if_pos h6]
    try dsimp only []
    refine ⟨?_, ?_⟩ <;> first | rfl | (split <;> rfl)
  rw [if_neg h6, if_neg h6]
  by_cases h7 : matchesUp k = true
  · rw [if_pos h7, if_pos h7]
    try dsimp only []
    constructor
    · split
      · rfl
      · exact navStep_cmds m k b
    · split
      · rfl
      · exact navStep_model m k b
  rw [if_neg h7, if_neg h7]
  by_cases h8 : matchesDown k = true
  · rw [if_pos h8, if_pos h8]
    try dsimp only []
    constructor
    · split
      · rfl
      · exact navStep_cmds m k b
    · split
      · rfl
      · exact navStep_model m k b
  rw [if_neg h8, if_neg h8]
  by_cases h9 : matchesHome k = true
  · rw [if_pos h9, if_pos h9]
    exact ⟨navStep_cmds m k b, navStep_model m k b⟩
  rw [if_neg h9, if_neg h9]
  by_cases h10 : matchesEnd k = true
  · rw [if_pos h10, if_pos h10]
    exact ⟨navStep_cmds m k b, navStep_model m k b⟩
  rw [if_neg h10, if_neg h10]
  by_cases h11 : matchesApply k = true
  · rw [if_pos h11, if_pos h11]
    dsimp only [applySelection]
    simp only [getSelectedFiles_proc, getSelectedFiles_mk]
    constructor
    · repeat' split
      all_goals rfl
    · repeat' split
      all_goals rfl
  rw [if_neg h11, if_neg h11]
  by_cases h12 : matchesCommit k = true
  · rw [if_pos h12, if_pos h12]
    dsimp only [enterCommitMode]
    refine ⟨?_, ?_⟩ <;> (split <;> rfl)
  rw [if_neg h12, if_neg h12]
  by_cases h13 : matchesModifyHead k = true
  · rw [if_pos h13, if_pos h13]
    dsimp only [enterModifyHeadMode]
    exact ⟨rfl, rfl⟩
  rw [if_neg h13, if_neg h13]
  exact ⟨rfl, rfl⟩


theorem handleCommitMessageKeys_procWriteOnly : ProcWriteOnly handleCommitMessageKeys := by
  intro m k b
  unfold handleCommitMessageKeys
  by_cases h1 : (k == "ctrl+d") = true
  · rw [if_pos h1, if_pos h1]
    dsimp only [proceedToDateInput]
    refine ⟨?_, ?_⟩ <;> first | rfl | (split <;> rfl)
  rw [if_neg h1, if_neg h1]
  by_cases h2 : (k == "esc") = true
  · rw [if_pos h2, if_pos h2]
    dsimp only [cancelCommit]
    exact ⟨rfl, rfl⟩
  rw [if_neg h2, if_neg h2]
  exact ⟨rfl, rfl⟩

theorem handleCommitDateKeys_procWriteOnly : ProcWriteOnly handleCommitDateKeys := by
  intro m k b
  unfold handleCommitDateKeys
  by_cases h1 : (k == "enter") = true
  · rw [if_pos h1, if_pos h1]
    exact ⟨rfl, rfl⟩
  rw [if_neg h1, if_neg h1]
  by_cases h2 : (k == "esc") = true
  · rw [if_pos h2, if_pos h2]
    exact ⟨rfl, rfl⟩
  rw [if_neg h2, if_neg h2]
  exact ⟨rfl, rfl⟩

theorem handleCommitKeys_procWriteOnly : ProcWriteOnly handleCommitKeys := by
  intro m k b
  unfold handleCommitKeys
  dsimp only []
  cases hcs : m.commitState
  all_goals try dsimp only []
  · rw [← hcs]
    exact handleCommitMessageKeys_procWriteOnly m k b
  · rw [← hcs]
    exact handleCommitDateKeys_procWriteOnly m k b
  · constructor
    · rfl
    · rw [hcs]

theorem handleHelpKeys_procWriteOnly : ProcWriteOnly handleHelpKeys := by
  intro m k b
  unfold handleHelpKeys
  by_cases h1 : (matchesToggleHelp k || matchesQuit k) = true
  · rw [if_pos h1, if_pos h1]
    exact ⟨rfl, rfl⟩
  rw [if_neg h1, if_neg h1]
  exact ⟨rfl, rfl⟩

theorem handleHeadMenuKeys_procWriteOnly : ProcWriteOnly handleHeadMenuKeys := by
  intro m k b
  unfold handleHeadMenuKeys
  by_cases h1 : (k == "m") = true
  · rw [if_pos h1, if_pos h1]
    dsimp only [enterAmendMessageMode]
    refine ⟨?_, ?_⟩ <;> first | rfl | (split <;> rfl)
  rw [if_neg h1, if_neg h1]
  by_cases h2 : (k == "f") = true
  · rw [if_pos h2, if_pos h2]
    exact ⟨rfl, rfl⟩
  rw [if_neg h2, if_neg h2]
  by_cases h3 : (k == "esc" || k == "q") = true
  · rw [if_pos h3, if_pos h3]
    dsimp only [cancelModifyHead]
    exact ⟨rfl, rfl⟩
  rw [if_neg h3, if_neg h3]
  exact ⟨rfl, rfl⟩

theorem handleHeadAmendMessageKeys_procWriteOnly :
    ProcWriteOnly handleHeadAmendMessageKeys := by
  intro m k b
  unfold handleHeadAmendMessageKeys
  by_cases h1 : (k == "ctrl+d") = true
  · rw [if_pos h1, if_pos h1]
    dsimp only []
    refine ⟨?_, ?_⟩ <;> first | rfl | (split <;> rfl)
  rw [if_neg h1, if_neg h1]
  by_cases h2 : (k == "esc") = true
  · rw [if_pos h2, if_pos h2]
    exact ⟨rfl, rfl⟩
  rw [if_neg h2, if_neg h2]
  exact ⟨rfl, rfl⟩

theorem handleHeadAmendFilesKeys_procWriteOnly :
    ProcWriteOnly handleHeadAmendFilesKeys := by
  intro m k b
  unfold handleHeadAmendFilesKeys
  dsimp only [cancelModifyHead]
  exact ⟨rfl, rfl⟩

theorem handleModifyHeadKeys_procWriteOnly : ProcWriteOnly handleModifyHeadKeys := by
  intro m k b
  unfold handleModifyHeadKeys
  dsimp only []
  cases hhs : m.headModifyState
  all_goals try dsimp only []
  · rw [← hhs]
    exact handleHeadMenuKeys_procWriteOnly m k b
  · rw [← hhs]
    exact handleHeadAmendMessageKeys_procWriteOnly m k b
  · rw [← hhs]
    exact handleHeadAmendFilesKeys_procWriteOnly m k b

theorem handleKeyMsg_procWriteOnly : ProcWriteOnly handleKeyMsg := by
  intro m k b
  unfold handleKeyMsg
  dsimp only []
  cases hst : m.state
  all_goals try dsimp only []
  · rw [← hst]
    exact handleFileListKeys_procWriteOnly m k b
  · rw [← hst]
    exact handleCommitKeys_procWriteOnly m k b
  · rw [← hst]
    exact handleCommitKeys_procWriteOnly m k b
  · rw [← hst]
    exact handleModifyHeadKeys_procWriteOnly m k b
  · rw [← hst]
    exact handleHelpKeys_procWriteOnly m k b


/-- C3 (amended): the processing flag's actual lifecycle.  It is reset to
false only by stage/unstage result messages; every other result message
leaves it unchanged (in particular head-info, commit, amend, status and
diff results never reset it).  It is set to true when entering the
HEAD-modify flow, when dispatching the soft reset, and when confirming a
non-empty amend message.  Key handling treats the flag as write-only, so
it never rejects or gates input. -/
theorem processing_flag_behavior :
    (∀ m fs er, (Update m (Msg.gitStageMsg fs er)).1.processing = false) ∧
    (∀ m fs er, (Update m (Msg.gitUnstageMsg fs er)).1.processing = false) ∧
    (∀ m info, (Update m (Msg.gitHeadInfoMsg info)).1.processing = m.processing) ∧
    (∀ m suc er msg2, (Update m (Msg.gitCommitMsg suc er msg2)).1.processing = m.processing) ∧
    (∀ m suc er msg2, (Update m (Msg.gitAmendMsg suc er msg2)).1.processing = m.processing) ∧
    (∀ m s, (Update m (Msg.statusMsg s)).1.processing = m.processing) ∧
    (∀ m e, (Update m (Msg.errorMsg e)).1.processing = m.processing) ∧
    (∀ m f c er, (Update m (Msg.gitDiffMsg f c er)).1.processing = m.processing) ∧
    (∀ m, (Update m Msg.gitRefreshMsg).1.processing = m.processing) ∧
    (∀ m st, (Update m (Msg.gitStatusMsg st)).1.processing = m.processing) ∧
    (∀ m, handleFileListKeys m "m" =
      ({ enterModifyHeadMode m with processing := true }, [Cmd.fetchHeadInfo])) ∧
    (∀ m, handleHeadMenuKeys m "f" =
      ({ m with processing := true }, [Cmd.softResetHeadCmd])) ∧
    (∀ m, ¬(m.headMessageTextarea = "") →
      handleHeadAmendMessageKeys m "ctrl+d" =
        ({ m with processing := true }, [Cmd.amendMessageCmd m.headMessageTextarea])) ∧
    ProcWriteOnly handleKeyMsg := by
  refine ⟨?_, ?_, ?_, ?_, ?_, ?_, ?_, ?_, ?_, ?_, ?_, ?_, ?_, handleKeyMsg_procWriteOnly⟩
  · intro m fs er
    cases er <;> rfl
  · intro m fs er
    cases er <;> rfl
  · intro m info
    rfl
  · intro m suc er msg2
    cases er <;> rfl
  · intro m suc er msg2
    cases er <;> rfl
  · intro m s
    unfold Update
    dsimp only []
    split <;> rfl
  · intro m e
    unfold Update
    dsimp only []
    split <;> rfl
  · intro m f c er
    cases er <;> rfl
  · intro m
    rfl
  · intro m st
    unfold Update
    dsimp only []
    repeat' split
    all_goals rfl
  · intro m
    simp [handleFileListKeys, matchesQuit, matchesSelect, matchesSelectAll,
      matchesDeselect, matchesTogglePreview, matchesToggleHelp, matchesUp,
      matchesDown, matchesHome, matchesEnd, matchesApply, matchesCommit,
      matchesModifyHead]
  · intro m
    simp [handleHeadMenuKeys]
  · intro m hne
    simp [handleHeadAmendMessageKeys, hne]

/-- C3 witness: the amended flag lifecycle applied at concrete inputs —
in particular the amend-message dispatch with the non-empty drafted
message sets the flag. -/
theorem processing_flag_behavior_witness :
    ¬(mAmendMsg.headMessageTextarea = "") ∧
      ((Update mAmendMsg (Msg.gitStageMsg ["a.txt"] none)).1.processing = false ∧
        (Update mAmendMsg (Msg.gitHeadInfoMsg (some headInfoSample))).1.processing =
          mAmendMsg.processing ∧
        handleFileListKeys mAmendMsg "m" =
          ({ enterModifyHeadMode mAmendMsg with processing := true }, [Cmd.fetchHeadInfo]) ∧
        handleHeadMenuKeys mAmendMsg "f" =
          ({ mAmendMsg with processing := true }, [Cmd.softResetHeadCmd]) ∧
        handleHeadAmendMessageKeys mAmendMsg "ctrl+d" =
          ({ mAmendMsg with processing := true },
            [Cmd.amendMessageCmd mAmendMsg.headMessageTextarea])) :=
  ⟨by decide,
    processing_flag_behavior.1 mAmendMsg ["a.txt"] none,
    processing_flag_behavior.2.2.1 mAmendMsg (some headInfoSample),
    processing_flag_behavior.2.2.2.2.2.2.2.2.2.2.1 mAmendMsg,
    processing_flag_behavior.2.2.2.2.2.2.2.2.2.2.2.1 mAmendMsg,
    processing_flag_behavior.2.2.2.2.2.2.2.2.2.2.2.2.1 mAmendMsg (by decide)⟩

theorem mlookup_map_insert [BEq κ] [LawfulBEq κ] (m : List (κ × β)) (k : κ) (v : β)
    (h : m.any (fun p => p.1 == k) = true) :
    mlookup (m.map (fun p => if p.1 == k then (k, v) else p)) k = some v := by
  induction m with
  | nil => simp at h
  | cons p t ih =>
    rw [List.map_cons]
    by_cases hp : (p.1 == k) = true
    · rw [if_pos hp]
      unfold mlookup
      rw [List.find?_cons_of_pos _ (by simp)]
    · rw [if_neg hp]
      unfold mlookup at ih ⊢
      rw [List.find?_cons_of_neg _ (by simpa using hp)]
      apply ih
      rcases List.any_eq_true.mp h with ⟨q, hq, hq2⟩
      rcases List.mem_cons.mp hq with hq0 | hq0
      · exact absurd (hq0 ▸ hq2) (by simpa using hp)
      · exact List.any_eq_true.mpr ⟨q, hq0, hq2⟩

theorem mlookup_append_single [BEq κ] [LawfulBEq κ] (m : List (κ × β)) (k : κ) (v : β)
    (h : m.any (fun p => p.1 == k) = false) :
    mlookup (m ++ [(k, v)]) k = some v := by
  induction m with
  | nil =>
    unfold mlookup
    simp
  | cons p t ih =>
    rw [List.cons_append]
    unfold mlookup at ih ⊢
    simp only [List.any_cons, Bool.or_eq_false_iff] at h
    rw [List.find?_cons_of_neg _ (by simpa using h.1)]
    exact ih h.2

/-- Inserting into the association map makes the inserted value the one
looked up at that key (Go map write/read round trip). -/
theorem mlookup_minsert_self [BEq κ] [LawfulBEq κ] (m : List (κ × β)) (k : κ) (v : β) :
    mlookup (minsert m k v) k = some v := by
  unfold minsert
  split
  · apply mlookup_map_insert
    assumption
  · apply mlookup_append_single
    rename_i h
    rw [Bool.not_eq_true] at h
    exact h


/-- C8 counterexample: with a backend whose diff always fails, two fetches
of the same unstaged path make two backend diff calls — the failed result
is not cached, so the second request hits the backend again, refuting
"exactly one backend diff call" as stated. -/
theorem diff_cache_failure_counterexample :
    diffCallCount
        ((fetchDiffCmdRun failBackend [] (NewFileItem "a.txt" FileStatus.Unstaged)).calls ++
          (fetchDiffCmdRun failBackend
              (fetchDiffCmdRun failBackend [] (NewFileItem "a.txt" FileStatus.Unstaged)).cache
              (NewFileItem "a.txt" FileStatus.Unstaged)).calls) = 2 := by
  decide

set_option maxHeartbeats 1000000 in
/-- C8 (amended): if the first fetch for a path starts from a cold cache
and does populate it (which happens exactly when the underlying operations
succeed), then the fetched text is the cached text, the second fetch
touches no backend at all and returns the cached text byte-identically,
and the pair made exactly one backend diff call for a tracked file (an
untracked file is read from disk, not diffed). -/
theorem diff_cache_second_fetch (b : Backend) (cache : List (String × String))
    (file : FileItem) (c : String)
    (h1 : mlookup cache file.Path = none)
    (h2 : mlookup (fetchDiffCmdRun b cache file).cache file.Path = some c) :
    (fetchDiffCmdRun b cache file).content = c ∧
      fetchDiffCmdRun b (fetchDiffCmdRun b cache file).cache file =
        ⟨(fetchDiffCmdRun b cache file).cache, [], file.Path, c⟩ ∧
      diffCallCount (fetchDiffCmdRun b cache file).calls =
        (if file.Status = FileStatus.Untracked then 0 else 1) := by
  unfold fetchDiffCmdRun at h2 ⊢
  rw [h1] at h2 ⊢
  simp only [] at h2
  dsimp only []
  cases hst : file.Status
  case Untracked =>
    rw [hst] at h2
    simp only [] at h2
    dsimp only []
    cases hrf : b.readFile file.Path
    case error e =>
      rw [hrf] at h2
      simp only [] at h2
      rw [h1] at h2
      exact Option.noConfusion h2
    case ok bytes =>
      rw [hrf] at h2
      simp only [] at h2
      rw [mlookup_minsert_self] at h2
      obtain hc := Option.some.inj h2
      subst hc
      dsimp only []
      refine ⟨rfl, ?_, rfl⟩
      rw [mlookup_minsert_self]
  case Staged =>
    rw [hst] at h2
    simp only [] at h2
    dsimp only []
    unfold fetchDiffCmdRun.fetchTrackedDiff at h2 ⊢
    cases hd : b.diff file.Path true
    case error e =>
      rw [hd] at h2
      simp only [] at h2
      rw [h1] at h2
      exact Option.noConfusion h2
    case ok content =>
      rw [hd] at h2
      simp only [] at h2
      dsimp only []
      by_cases hemp : (content == "") = true
      · rw [if_pos hemp] at h2
        rw [if_pos hemp]
        cases hrf : b.readFile file.Path with
        | error e =>
          rw [hrf] at h2
          simp only [] at h2
          rw [mlookup_minsert_self] at h2
          obtain hc := Option.some.inj h2
          subst hc
          dsimp only []
          refine ⟨rfl, ?_, rfl⟩
          rw [mlookup_minsert_self]
        | ok bytes =>
          rw [hrf] at h2
          simp only [] at h2
          rw [mlookup_minsert_self] at h2
          obtain hc := Option.some.inj h2
          subst hc
          dsimp only []
          refine ⟨rfl, ?_, rfl⟩
          rw [mlookup_minsert_self]
      · rw [if_neg hemp] at h2
        rw [if_neg hemp]
        rw [mlookup_minsert_self] at h2
        obtain hc := Option.some.inj h2
        subst hc
        dsimp only []
        refine ⟨rfl, ?_, rfl⟩
        rw [mlookup_minsert_self]
  case Unstaged =>
    rw [hst] at h2
    simp only [] at h2
    dsimp only []
    unfold fetchDiffCmdRun.fetchTrackedDiff at h2 ⊢
    cases hd : b.diff file.Path false
    case error e =>
      rw [hd] at h2
      simp only [] at h2
      rw [h1] at h2
      exact Option.noConfusion h2
    case ok content =>
      rw [hd] at h2
      simp only [] at h2
      dsimp only []
      by_cases hemp : (content == "") = true
      · rw [if_pos hemp] at h2
        rw [if_pos hemp]
        cases hrf : b.readFile file.Path with
        | error e =>
          rw [hrf] at h2
          simp only [] at h2
          rw [mlookup_minsert_self] at h2
          obtain hc := Option.some.inj h2
          subst hc
          dsimp only []
          refine ⟨rfl, ?_, rfl⟩
          rw [mlookup_minsert_self]
        | ok bytes =>
          rw [hrf] at h2
          simp only [] at h2
          rw [mlookup_minsert_self] at h2
          obtain hc := Option.some.inj h2
          subst hc
          dsimp only []
          refine ⟨rfl, ?_, rfl⟩
          rw [mlookup_minsert_self]
      · rw [if_neg hemp] at h2
        rw [if_neg hemp]
        rw [mlookup_minsert_self] at h2
        obtain hc := Option.some.inj h2
        subst hc
        dsimp only []
        refine ⟨rfl, ?_, rfl⟩
        rw [mlookup_minsert_self]


/-- C8 witness: the amended cache property on a concrete successful
backend: the first fetch caches "DIFF" and the second returns it without
backend calls. -/
theorem diff_cache_second_fetch_witness :
    (mlookup ([] : List (String × String)) (NewFileItem "a.txt" FileStatus.Unstaged).Path = none ∧
      mlookup (fetchDiffCmdRun okDiffBackend [] (NewFileItem "a.txt" FileStatus.Unstaged)).cache
          (NewFileItem "a.txt" FileStatus.Unstaged).Path = some "DIFF") ∧
      ((fetchDiffCmdRun okDiffBackend [] (NewFileItem "a.txt" FileStatus.Unstaged)).content = "DIFF" ∧
        fetchDiffCmdRun okDiffBackend
            (fetchDiffCmdRun okDiffBackend [] (NewFileItem "a.txt" FileStatus.Unstaged)).cache
            (NewFileItem "a.txt" FileStatus.Unstaged) =
          ⟨(fetchDiffCmdRun okDiffBackend [] (NewFileItem "a.txt" FileStatus.Unstaged)).cache,
            [], (NewFileItem "a.txt" FileStatus.Unstaged).Path, "DIFF"⟩ ∧
        diffCallCount (fetchDiffCmdRun okDiffBackend [] (NewFileItem "a.txt" FileStatus.Unstaged)).calls =
          (if (NewFileItem "a.txt" FileStatus.Unstaged).Status = FileStatus.Untracked then 0 else 1)) :=
  ⟨⟨rfl, rfl⟩,
    diff_cache_second_fetch okDiffBackend [] (NewFileItem "a.txt" FileStatus.Unstaged) "DIFF" rfl rfl⟩

end IGit
